import Mathlib

/-!
Shallow embedding of `stress/stress.py`, a command-line utility that
consumes CPU, memory and disk resources.  Pure fragments of the Python
code become Lean functions; the stateful infinite loops become explicit
step functions on state records, iterated a given number of times;
external observations (resident set size, allocation success, the set of
live children) become explicit oracle parameters of the step functions;
Python exceptions become `Except` results.  Machine arithmetic is exact
here because Python integers are unbounded.
-/

/-! ### DiskWriter: `stress_io`

The Python loop keeps a cumulative `bytes_written` counter, a file write
cursor (moved by `tf.seek(0)` and advanced by `tf.write`), and the file
itself, whose size is the high-water mark of cursor positions reached by
writes.  One `IOState` holds these three quantities in bytes; `ioStep`
is one iteration of the `while True:` body. -/

structure IOState where
  bytesWritten : Nat
  filePos : Nat
  fileSize : Nat
deriving DecidableEq

def ioInit : IOState := ⟨0, 0, 0⟩

/-- The Python guard `if max_bytes and bytes_written >= max_bytes:`.
`none` models Python `None`; `some 0` would be falsy in Python as well,
hence the `!= 0` conjunct. -/
def wrapCond : Option Nat → IOState → Bool
  | some m, s => m != 0 && decide (m ≤ s.bytesWritten)
  | none, _ => false

/-- Cursor position from which the next `tf.write` starts: `tf.seek(0)`
is executed exactly when `wrapCond` holds. -/
def seekPos (maxBytes : Option Nat) (s : IOState) : Nat :=
  if wrapCond maxBytes s then 0 else s.filePos

/-- One iteration of the `stress_io` loop body: optional seek, then
`tf.write(b'0' * write_bytes)`, then `bytes_written += write_bytes`.
Writing `writeBytes` bytes at position `p` leaves the cursor at
`p + writeBytes` and extends the file to at least that size. -/
def ioStep (writeBytes : Nat) (maxBytes : Option Nat) (s : IOState) : IOState :=
  let p := seekPos maxBytes s
  ⟨s.bytesWritten + writeBytes, p + writeBytes, max s.fileSize (p + writeBytes)⟩

/-- State after `k` iterations of the `stress_io` loop. -/
def ioRun (writeBytes : Nat) (maxBytes : Option Nat) : Nat → IOState
  | 0 => ioInit
  | k + 1 => ioStep writeBytes maxBytes (ioRun writeBytes maxBytes k)

/-- `max_bytes = None; if max_file_size_mb: max_bytes = max_file_size_mb * 1024 * 1024`. -/
def maxBytesOf : Option Nat → Option Nat
  | some m => if m != 0 then some (m * 1024 * 1024) else none
  | none => none

/-- The `stress_io` loop, with its arguments still in megabytes:
`write_bytes = write_mb_per_second * 1024 * 1024`. -/
def stressIORun (writeMB : Nat) (maxFileSizeMB : Option Nat) (k : Nat) : IOState :=
  ioRun (writeMB * 1024 * 1024) (maxBytesOf maxFileSizeMB) k

/-- `true` when the seek-to-zero branch was not taken in any of the first
`k` iterations of the `stress_io` loop. -/
def noWrapBefore (writeMB maxMB k : Nat) : Bool :=
  (List.range k).all
    (fun j => ! wrapCond (maxBytesOf (some maxMB)) (stressIORun writeMB (some maxMB) j))

/-- Helper for Python `format(n, ",")`: group the (reversed) digit list
in threes, inserting `,`. -/
def commaRev : List Char → List Char
  | a :: b :: c :: d :: rest => a :: b :: c :: ',' :: commaRev (d :: rest)
  | l => l

/-- Python `f"{n:,}"` for a non-negative int: decimal digits with a `,`
thousands separator. -/
def commaFmt (n : Nat) : String :=
  String.mk (commaRev (toString n).toList.reverse).reverse

/-- Python `f"{x:,}"` where `x` is an int or `None`.  CPython raises
`TypeError: unsupported format string passed to NoneType.__format__`
when a format spec is applied to `None`. -/
def pyFmtCommaOpt : Option Nat → Except String String
  | some n => Except.ok (commaFmt n)
  | none => Except.error "unsupported format string passed to NoneType.__format__"

/-- The banner printed before the `stress_io` loop:
`f"Writing {write_mb_per_second:,} MB/s to file: {tf.name} (max={max_file_size_mb:,} MB)"`.
The temp-file name is an external artifact and is elided. -/
def ioBanner (writeMB : Nat) (maxFileSizeMB : Option Nat) : Except String String :=
  match pyFmtCommaOpt maxFileSizeMB with
  | Except.error e => Except.error e
  | Except.ok ms =>
      Except.ok ("Writing " ++ commaFmt writeMB ++ " MB/s to file (max=" ++ ms ++ " MB)")

/-- `stress_io(write_mb_per_second, max_file_size_mb)` run for `k` loop
iterations: the banner is printed first, and any exception it raises
aborts the task before a single byte is written. -/
def stress_io (writeMB : Nat) (maxFileSizeMB : Option Nat) (k : Nat) : Except String IOState :=
  match ioBanner writeMB maxFileSizeMB with
  | Except.error e => Except.error e
  | Except.ok _ => Except.ok (stressIORun writeMB maxFileSizeMB k)

/-! ### MemoryRamper / CpuMemoryWorker: `_spin`

Worker state: the current step size `ram_per_step_mb` and the held list
`dummy` of Python floats (modelled as exact rationals; the source only
adds the literal `1.010101` to them).  Each loop iteration observes the
current resident set size and whether the big list allocation raises
`MemoryError` — both are facts about the OS, so they are oracle inputs
of the step function. -/

inductive AllocResult
  | ok
  | memErr
deriving DecidableEq

structure SpinState where
  ramPerStepMB : Nat
  dummy : List ℚ
deriving DecidableEq

/-- `steps = 8` in `_spin`. -/
def steps : Nat := 8

/-- `sys.getsizeof(1.0)` on CPython (64-bit): 24 bytes. -/
def sizeofFloat : Nat := 24

/-- The literal `1.010101` added to every element each iteration. -/
def incConst : ℚ := 1010101 / 1000000

/-- `int(ram_per_step_mb / sys.getsizeof(num) * 1024 * 1024)`: the number
of copies of `num` appended in one successful allocation. -/
def fillCount (ramPerStepMB : Nat) : Nat :=
  ramPerStepMB * 1024 * 1024 / sizeofFloat

/-- `ram_per_step_mb = int(ram_per_core_mb / steps)` and `dummy = list([1.0])`. -/
def spinInit (ramPerCoreMB : Nat) : SpinState :=
  ⟨ramPerCoreMB / steps, [1]⟩

/-- The `dummy` list after the allocation phase of one iteration: if
`rss < ram_per_core_mb * 1024 * 1024`, the worker tries
`dummy += [num] * fillCount`; a `MemoryError` leaves `dummy` unchanged
(the list comprehension fails before the `+=` happens). -/
def allocDummy (ramPerCoreMB rss : Nat) (a : AllocResult) (s : SpinState) : List ℚ :=
  if rss < ramPerCoreMB * 1024 * 1024 then
    match a with
    | AllocResult.ok => s.dummy ++ List.replicate (fillCount s.ramPerStepMB) 1
    | AllocResult.memErr => s.dummy
  else s.dummy

/-- The step size after the allocation phase: the `except MemoryError`
handler runs `ram_per_step_mb = int(ram_per_step_mb * 0.8)`. -/
def allocStepMB (ramPerCoreMB rss : Nat) (a : AllocResult) (s : SpinState) : Nat :=
  if rss < ramPerCoreMB * 1024 * 1024 then
    match a with
    | AllocResult.ok => s.ramPerStepMB
    | AllocResult.memErr => s.ramPerStepMB * 8 / 10
  else s.ramPerStepMB

/-- One full iteration of the `while True:` body of `_spin`: the guarded
allocation attempt (with the `MemoryError` handler), then the
unconditional touch pass `for i, n in enumerate(dummy): dummy[i] += 1.010101`. -/
def spinIter (ramPerCoreMB rss : Nat) (a : AllocResult) (s : SpinState) : SpinState :=
  ⟨allocStepMB ramPerCoreMB rss a s,
   (allocDummy ramPerCoreMB rss a s).map (fun x => x + incConst)⟩

/-- `_spin` run over a trace of per-iteration observations
(resident set size, allocation outcome). -/
def spinRun (ramPerCoreMB : Nat) (obs : List (Nat × AllocResult)) : SpinState :=
  obs.foldl (fun s o => spinIter ramPerCoreMB o.1 o.2 s) (spinInit ramPerCoreMB)

/-! ### WorkerSupervisor: `stress_processes`

The steady-state poll body observes `multiprocessing.active_children()`
(an oracle: the list of live child pids) and spawns at most one
replacement `_spin` worker. -/

structure Worker where
  ramPerCoreMB : Nat
  pid : Nat
deriving DecidableEq

/-- `f"Only {len(children)}/{num_processes} running - respawned {p.pid}"`. -/
def respawnMsg (liveCount numProcesses pid : Nat) : String :=
  "Only " ++ toString liveCount ++ "/" ++ toString numProcesses ++
    " running - respawned " ++ toString pid

/-- One poll cycle of the supervisor loop: returns the list of workers
spawned in this cycle and the log lines printed.  `children` is the
observed list of live child pids, `newPid` the pid the OS would give a
newly spawned process. -/
def pollCycle (numProcesses ramPerCoreMB : Nat) (children : List Nat) (newPid : Nat) :
    List Worker × List String :=
  if children.length < numProcesses then
    ([⟨ramPerCoreMB, newPid⟩],
     [respawnMsg children.length numProcesses newPid])
  else ([], [])

/-! ### Entry point: `_cmd_line` -/

/-- What happens when SIGINT arrives: Python's default is to raise
`KeyboardInterrupt`; `_cmd_line` installs
`signal.signal(signal.SIGINT, lambda x, y: sys.exit(1))` instead. -/
inductive SignalBehavior
  | defaultRaiseKeyboardInterrupt
  | sysExit (code : Nat)
deriving DecidableEq

/-- The handler installed by `_cmd_line`: `lambda x, y: sys.exit(1)`. -/
def sigintHandler : SignalBehavior := SignalBehavior.sysExit 1

/-- Python `if some_value:` truthiness on an optional int. -/
def truthy : Option Nat → Bool
  | some v => v != 0
  | none => false

/-- `x if x-is-truthy else default`, the shape of the two
`if not ...:` default substitutions in `_cmd_line`. -/
def pyOr : Option Nat → Nat → Nat
  | some v, d => if v = 0 then d else v
  | none, d => d

/-- The resolved configuration `_cmd_line` acts on after parsing and
defaulting: how many CPU/RAM stressor processes are started, their
per-worker memory target, and whether each stressor family is started. -/
structure Config where
  coresToStress : Nat
  memoryPerCore : Nat
  cpuStarted : Bool
  ioStarted : Bool
  ioWrite : Option Nat
  maxFile : Option Nat
  onSigint : SignalBehavior
deriving DecidableEq

/-- `_cmd_line` with the parsed option values as inputs (`none` models an
absent flag) and the two host facts `multiprocessing.cpu_count()` and
`psutil.virtual_memory().total` (in MB) as parameters.  A zero or absent
`--cores` is replaced by the cpu count, a zero or absent `--memory` by
total host memory; `memory_per_core = int(memory_to_allocate / cores_to_stress)`
raises `ZeroDivisionError` if the resolved core count is zero. -/
def cmd_line (cores memory write maxF : Option Nat) (cpuCount totalMemMB : Nat) :
    Except String Config :=
  let c := pyOr cores cpuCount
  let m := pyOr memory totalMemMB
  if c = 0 then Except.error "ZeroDivisionError: division by zero"
  else
    Except.ok ⟨c, m / c, c != 0, truthy write, write, maxF, sigintHandler⟩

/-! ### Helper lemmas about the DiskWriter state machine -/

lemma bytesWritten_ioRun (wB : Nat) (mB : Option Nat) (k : Nat) :
    (ioRun wB mB k).bytesWritten = k * wB := by
  induction k with
  | zero => simp [ioRun, ioInit]
  | succ n ih => simp [ioRun, ioStep, ih, Nat.succ_mul]

lemma wrapCond_some_iff (mB : Nat) (s : IOState) :
    wrapCond (some mB) s = true ↔ mB ≠ 0 ∧ mB ≤ s.bytesWritten := by
  simp [wrapCond]

lemma wrapCond_false_lt {mB : Nat} {s : IOState} (h0 : mB ≠ 0)
    (h : wrapCond (some mB) s = false) : s.bytesWritten < mB := by
  simp [wrapCond, h0] at h
  omega

/-- Before the wrap condition has ever held, the loop appends: every
iteration writes at the end of the file, so counter, cursor and size
coincide at `k * writeBytes`. -/
lemma ioRun_preWrap (wB mB : Nat) (k : Nat) (h : ∀ i, i < k → i * wB < mB) :
    ioRun wB (some mB) k = ⟨k * wB, k * wB, k * wB⟩ := by
  induction k with
  | zero => simp [ioRun, ioInit]
  | succ n ih =>
    have hn := ih (fun i hi => h i (Nat.lt_succ_of_lt hi))
    have hbw : n * wB < mB := h n (Nat.lt_succ_self n)
    have hnle : ¬ (mB ≤ n * wB) := by omega
    have hc : wrapCond (some mB) (⟨n * wB, n * wB, n * wB⟩ : IOState) = false := by
      simp [wrapCond, hnle]
    show ioStep wB (some mB) (ioRun wB (some mB) n) = _
    rw [hn]
    have hmax2 : max (n * wB) (n * wB + wB) = n * wB + wB :=
      Nat.max_eq_right (Nat.le_add_right _ _)
    simp [ioStep, seekPos, hc, Nat.succ_mul, hmax2]

/-- One step from a state in which the wrap condition holds: seek to 0,
then write. -/
lemma ioStep_wrap (wB mB : Nat) (s : IOState) (h0 : mB ≠ 0) (h : mB ≤ s.bytesWritten) :
    ioStep wB (some mB) s = ⟨s.bytesWritten + wB, wB, max s.fileSize wB⟩ := by
  have hc : wrapCond (some mB) s = true := (wrapCond_some_iff mB s).mpr ⟨h0, h⟩
  simp [ioStep, seekPos, hc]

/-- Once the wrap condition holds and the file already holds `k * wB`
bytes, every later iteration wraps: the counter keeps accumulating and
the file size stays put. -/
lemma ioRun_latch (wB mB k : Nat) (h0 : mB ≠ 0) (hk : 0 < k)
    (hstart : ioRun wB (some mB) k = ⟨k * wB, k * wB, k * wB⟩)
    (hge : mB ≤ k * wB) (j : Nat) :
    (ioRun wB (some mB) (k + j)).bytesWritten = k * wB + j * wB
    ∧ (ioRun wB (some mB) (k + j)).fileSize = k * wB
    ∧ mB ≤ (ioRun wB (some mB) (k + j)).bytesWritten := by
  induction j with
  | zero =>
    rw [Nat.add_zero, hstart]
    exact ⟨by simp, rfl, hge⟩
  | succ n ih =>
    obtain ⟨ih1, ih2, ih3⟩ := ih
    have hrw : ioRun wB (some mB) (k + (n + 1))
        = ioStep wB (some mB) (ioRun wB (some mB) (k + n)) := rfl
    rw [hrw, ioStep_wrap wB mB _ h0 ih3]
    have hwk : wB ≤ k * wB := by
      calc wB = 1 * wB := (one_mul wB).symm
        _ ≤ k * wB := Nat.mul_le_mul_right wB hk
    refine ⟨?_, ?_, ?_⟩
    · simp only [ih1, Nat.succ_mul]
      omega
    · simp only [ih2]
      omega
    · simp only [ih1]
      omega

lemma succ_mul_le_ceilMul (wB mB x : Nat) (hw : 0 < wB) (h : x * wB < mB) :
    (x + 1) * wB ≤ (mB + (wB - 1)) / wB * wB := by
  have h1 : x + 1 ≤ (mB + (wB - 1)) / wB := by
    rw [Nat.le_div_iff_mul_le hw, Nat.succ_mul]
    omega
  exact Nat.mul_le_mul_right wB h1

lemma wB_le_ceilMul (wB mB : Nat) (hw : 0 < wB) (hm : 0 < mB) :
    wB ≤ (mB + (wB - 1)) / wB * wB := by
  have h1 : 1 ≤ (mB + (wB - 1)) / wB := by
    rw [Nat.le_div_iff_mul_le hw]
    omega
  calc wB = 1 * wB := (one_mul wB).symm
    _ ≤ (mB + (wB - 1)) / wB * wB := Nat.mul_le_mul_right wB h1

lemma ceilMul_of_multiple (wB k : Nat) (hw : 0 < wB) :
    (k * wB + (wB - 1)) / wB * wB = k * wB := by
  rw [mul_comm k wB, Nat.mul_add_div hw, Nat.div_eq_of_lt (by omega), Nat.add_zero, mul_comm]

/-- Size invariant of the writer: the cursor never passes the counter,
and cursor and file size never pass `⌈maxBytes / writeBytes⌉ * writeBytes`. -/
lemma ioRun_size_inv (wB mB : Nat) (hw : 0 < wB) (hm : 0 < mB) (k : Nat) :
    (ioRun wB (some mB) k).filePos ≤ (ioRun wB (some mB) k).bytesWritten
    ∧ (ioRun wB (some mB) k).filePos ≤ (mB + (wB - 1)) / wB * wB
    ∧ (ioRun wB (some mB) k).fileSize ≤ (mB + (wB - 1)) / wB * wB := by
  induction k with
  | zero => exact ⟨Nat.le_refl 0, Nat.zero_le _, Nat.zero_le _⟩
  | succ n ih =>
    obtain ⟨ih1, ih2, ih3⟩ := ih
    have hbw : (ioRun wB (some mB) n).bytesWritten = n * wB := bytesWritten_ioRun wB (some mB) n
    have hrw : ioRun wB (some mB) (n + 1)
        = ioStep wB (some mB) (ioRun wB (some mB) n) := rfl
    cases hc : wrapCond (some mB) (ioRun wB (some mB) n) with
    | true =>
      rw [hrw]
      simp only [ioStep, seekPos, hc, if_true, Nat.zero_add]
      have hwB := wB_le_ceilMul wB mB hw hm
      exact ⟨by omega, hwB, max_le ih3 hwB⟩
    | false =>
      have hlt : (ioRun wB (some mB) n).bytesWritten < mB :=
        wrapCond_false_lt (Nat.pos_iff_ne_zero.mp hm) hc
      have hkey : (n + 1) * wB ≤ (mB + (wB - 1)) / wB * wB :=
        succ_mul_le_ceilMul wB mB n hw (hbw ▸ hlt)
      rw [hrw]
      simp only [ioStep, seekPos, hc, Bool.false_eq_true, if_false]
      rw [Nat.succ_mul] at hkey
      refine ⟨by omega, by omega, ?_⟩
      exact max_le ih3 (by omega)

lemma maxBytesOf_some {M : Nat} (hM : M ≠ 0) :
    maxBytesOf (some M) = some (M * 1024 * 1024) := by
  simp [maxBytesOf, hM]

lemma noWrapBefore_spec {w M k : Nat} (h : noWrapBefore w M k = true) :
    ∀ j, j < k → wrapCond (maxBytesOf (some M)) (stressIORun w (some M) j) = false := by
  intro j hj
  have hmem := List.all_eq_true.mp h j (List.mem_range.mpr hj)
  simpa using hmem

/-! ### Claim theorems for the DiskWriter -/

/-- C3 (code bug): with a positive write rate and `maxFileSizeMB` unset,
the writer does not run at all: the startup banner applies the `,`
format spec to `None`, which raises `TypeError` before the first write,
so the scratch file never grows.  This theorem evaluates the embedded
`stress_io` at the failing input `write=10, max=None`. -/
theorem C3_no_max_crashes_at_banner :
    stress_io 10 none 5
      = Except.error "unsupported format string passed to NoneType.__format__" := by
  rfl

/-- C4 (counterexample): with `write=30, max=100`, after 4 ticks no wrap
has occurred, yet cumulative bytes written and the scratch file size are
both 120 MB, exceeding the 100 MB maximum. -/
theorem C4_counterexample :
    noWrapBefore 30 100 4 = true
    ∧ 100 * 1024 * 1024 < (stressIORun 30 (some 100) 4).bytesWritten
    ∧ 100 * 1024 * 1024 < (stressIORun 30 (some 100) 4).fileSize := by
  decide

/-- C4 (amended): before the first wrap, cumulative bytes written stays
at or below `maxFileSizeMB` rounded up to a whole number of per-tick
writes; the file size never exceeds that same rounded-up bound (it can
exceed `M` megabytes by up to one tick's write when the per-tick write
size does not divide `M`); and whenever the wrap condition holds at a
tick, that write starts from cursor offset 0. -/
theorem C4_amended_bound (w M k n : Nat) (hw : 0 < w) (hM : 0 < M)
    (hpre : noWrapBefore w M k = true) :
    (stressIORun w (some M) k).bytesWritten
      ≤ (M * 1024 * 1024 + (w * 1024 * 1024 - 1)) / (w * 1024 * 1024) * (w * 1024 * 1024)
    ∧ (stressIORun w (some M) n).fileSize
      ≤ (M * 1024 * 1024 + (w * 1024 * 1024 - 1)) / (w * 1024 * 1024) * (w * 1024 * 1024)
    ∧ (wrapCond (maxBytesOf (some M)) (stressIORun w (some M) n) = true →
        seekPos (maxBytesOf (some M)) (stressIORun w (some M) n) = 0) := by
  have hwB : 0 < w * 1024 * 1024 := by positivity
  have hmB : 0 < M * 1024 * 1024 := by positivity
  have hmax : maxBytesOf (some M) = some (M * 1024 * 1024) :=
    maxBytesOf_some (Nat.pos_iff_ne_zero.mp hM)
  have hrun : ∀ t, stressIORun w (some M) t
      = ioRun (w * 1024 * 1024) (some (M * 1024 * 1024)) t := by
    intro t
    rw [stressIORun, hmax]
  refine ⟨?_, ?_, ?_⟩
  · cases k with
    | zero =>
      rw [hrun, bytesWritten_ioRun, Nat.zero_mul]
      exact Nat.zero_le _
    | succ kk =>
      have hcond := noWrapBefore_spec hpre kk (Nat.lt_succ_self kk)
      rw [hrun, hmax] at hcond
      have hlt : (ioRun (w * 1024 * 1024) (some (M * 1024 * 1024)) kk).bytesWritten
          < M * 1024 * 1024 := wrapCond_false_lt (Nat.pos_iff_ne_zero.mp hmB) hcond
      rw [bytesWritten_ioRun] at hlt
      rw [hrun, bytesWritten_ioRun]
      exact succ_mul_le_ceilMul _ _ kk hwB hlt
  · rw [hrun]
    exact (ioRun_size_inv _ _ hwB hmB n).2.2
  · intro hcond
    simp [seekPos, hcond]

/-- C4 witness: at `write=30, max=100`, no wrap happens in the first 4
ticks, and the amended bound is met (tightly: 120 MB = ⌈100/30⌉·30 MB). -/
theorem C4_amended_bound_witness :
    noWrapBefore 30 100 4 = true
    ∧ ((stressIORun 30 (some 100) 4).bytesWritten
        ≤ (100 * 1024 * 1024 + (30 * 1024 * 1024 - 1)) / (30 * 1024 * 1024) * (30 * 1024 * 1024)
      ∧ (stressIORun 30 (some 100) 5).fileSize
        ≤ (100 * 1024 * 1024 + (30 * 1024 * 1024 - 1)) / (30 * 1024 * 1024) * (30 * 1024 * 1024)
      ∧ (wrapCond (maxBytesOf (some 100)) (stressIORun 30 (some 100) 5) = true →
          seekPos (maxBytesOf (some 100)) (stressIORun 30 (some 100) 5) = 0)) :=
  ⟨by decide, C4_amended_bound 30 100 4 5 (by decide) (by decide) (by decide)⟩

/-- C10: once the cumulative counter first reaches the configured
maximum (at tick `k`), it is never reset — it keeps growing by one write
per tick — so the wrap condition holds at every later tick, every later
write is preceded by a seek to offset 0, and the file size stays frozen
at the smallest multiple of the per-tick write size that is at least the
cumulative total at the first wrap. -/
theorem C10_wrap_latch (w M k j : Nat) (hw : 0 < w) (hM : 0 < M)
    (h1 : M * 1024 * 1024 ≤ (stressIORun w (some M) k).bytesWritten)
    (h2 : (stressIORun w (some M) (k - 1)).bytesWritten < M * 1024 * 1024) :
    (stressIORun w (some M) (k + j)).bytesWritten
      = (stressIORun w (some M) k).bytesWritten + j * (w * 1024 * 1024)
    ∧ M * 1024 * 1024 ≤ (stressIORun w (some M) (k + j)).bytesWritten
    ∧ seekPos (maxBytesOf (some M)) (stressIORun w (some M) (k + j)) = 0
    ∧ (stressIORun w (some M) (k + j)).fileSize
      = ((stressIORun w (some M) k).bytesWritten + (w * 1024 * 1024 - 1))
          / (w * 1024 * 1024) * (w * 1024 * 1024) := by
  have hwB : 0 < w * 1024 * 1024 := by positivity
  have hmB : 0 < M * 1024 * 1024 := by positivity
  have hmax : maxBytesOf (some M) = some (M * 1024 * 1024) :=
    maxBytesOf_some (Nat.pos_iff_ne_zero.mp hM)
  have hrun : ∀ t, stressIORun w (some M) t
      = ioRun (w * 1024 * 1024) (some (M * 1024 * 1024)) t := by
    intro t
    rw [stressIORun, hmax]
  rw [hrun, bytesWritten_ioRun] at h1 h2
  have hk : 0 < k := by
    rcases Nat.eq_zero_or_pos k with h | h
    · subst h
      simp at h1
      omega
    · exact h
  have hstart := ioRun_preWrap (w * 1024 * 1024) (M * 1024 * 1024) k (by
    intro i hi
    have hle : i * (w * 1024 * 1024) ≤ (k - 1) * (w * 1024 * 1024) :=
      Nat.mul_le_mul_right _ (by omega)
    omega)
  have hlatch := ioRun_latch (w * 1024 * 1024) (M * 1024 * 1024) k
    (Nat.pos_iff_ne_zero.mp hmB) hk hstart h1 j
  obtain ⟨hl1, hl2, hl3⟩ := hlatch
  have hcond : wrapCond (some (M * 1024 * 1024))
      (ioRun (w * 1024 * 1024) (some (M * 1024 * 1024)) (k + j)) = true :=
    (wrapCond_some_iff _ _).mpr ⟨Nat.pos_iff_ne_zero.mp hmB, hl3⟩
  refine ⟨?_, ?_, ?_, ?_⟩
  · rw [hrun, hrun, hl1, bytesWritten_ioRun]
  · rw [hrun]
    exact hl3
  · rw [hmax, hrun]
    simp [seekPos, hcond]
  · rw [hrun, hrun, hl2, bytesWritten_ioRun, ceilMul_of_multiple _ _ hwB]

/-! ### Helper lemmas about the MemoryRamper -/

lemma allocDummy_length_ge (t rss : Nat) (a : AllocResult) (s : SpinState) :
    s.dummy.length ≤ (allocDummy t rss a s).length := by
  unfold allocDummy
  split
  · cases a
    · simp
    · simp
  · simp

lemma spinIter_length_ge (t rss : Nat) (a : AllocResult) (s : SpinState) :
    s.dummy.length ≤ (spinIter t rss a s).dummy.length := by
  have h := allocDummy_length_ge t rss a s
  simpa [spinIter] using h

lemma spinFold_length_ge (t : Nat) (obs : List (Nat × AllocResult)) (s : SpinState) :
    s.dummy.length ≤ (obs.foldl (fun st o => spinIter t o.1 o.2 st) s).dummy.length := by
  induction obs generalizing s with
  | nil => exact Nat.le_refl _
  | cons o rest ih =>
    exact Nat.le_trans (spinIter_length_ge t o.1 o.2 s) (ih (spinIter t o.1 o.2 s))

/-! ### Claim theorems for the MemoryRamper -/

/-- C6: when the allocation attempt hits `MemoryError` (resident usage
below target, so the attempt was made), the step size is multiplied by
0.8 — shrunk by 20%, with integer truncation — the held buffer is left
untouched by the failed attempt, and the loop simply continues: the very
next iteration can retry and, on success, appends a chunk sized by the
shrunk step.  The exception never escapes `_spin` (the step function is
total). -/
theorem C6_memerr_shrinks_step (t rss rss2 : Nat) (s : SpinState)
    (h : rss < t * 1024 * 1024) (h2 : rss2 < t * 1024 * 1024) :
    (spinIter t rss AllocResult.memErr s).ramPerStepMB = s.ramPerStepMB * 8 / 10
    ∧ (spinIter t rss AllocResult.memErr s).dummy.length = s.dummy.length
    ∧ (spinIter t rss2 AllocResult.ok (spinIter t rss AllocResult.memErr s)).dummy.length
        = s.dummy.length + fillCount (s.ramPerStepMB * 8 / 10) := by
  refine ⟨?_, ?_, ?_⟩
  · simp [spinIter, allocStepMB, h]
  · simp [spinIter, allocDummy, h]
  · simp [spinIter, allocDummy, allocStepMB, h, h2]

/-- C6 witness at target 1 MB, observed rss 0, step 10 MB, buffer `[1.0]`. -/
theorem C6_memerr_shrinks_step_witness :
    0 < 1 * 1024 * 1024
    ∧ ((spinIter 1 0 AllocResult.memErr ⟨10, [1]⟩).ramPerStepMB = 10 * 8 / 10
      ∧ (spinIter 1 0 AllocResult.memErr ⟨10, [1]⟩).dummy.length = 1
      ∧ (spinIter 1 0 AllocResult.ok (spinIter 1 0 AllocResult.memErr ⟨10, [1]⟩)).dummy.length
          = 1 + fillCount (10 * 8 / 10)) :=
  ⟨by decide, C6_memerr_shrinks_step 1 0 0 ⟨10, [1]⟩ (by decide) (by decide)⟩

/-- C7: over any run of `_spin`, the held buffer only grows: its element
count — and hence its size in bytes, each element being a fixed-size
float — is monotone non-decreasing; no iteration ever shrinks or
releases it. -/
theorem C7_buffer_only_grows (t : Nat) (obs extra : List (Nat × AllocResult)) :
    (spinRun t obs).dummy.length ≤ (spinRun t (obs ++ extra)).dummy.length
    ∧ sizeofFloat * (spinRun t obs).dummy.length
        ≤ sizeofFloat * (spinRun t (obs ++ extra)).dummy.length := by
  have h : spinRun t (obs ++ extra)
      = extra.foldl (fun st o => spinIter t o.1 o.2 st) (spinRun t obs) := by
    simp [spinRun, List.foldl_append]
  rw [h]
  have hlen := spinFold_length_ge t extra (spinRun t obs)
  exact ⟨hlen, Nat.mul_le_mul_left sizeofFloat hlen⟩

/-- C8: every iteration of `_spin` ends with a full pass over the held
buffer that adds `1.010101` to every element — genuinely changing each
one — whether or not allocation happened; and the allocation phase
appends new filler elements only when observed resident usage is below
the target (at or above target the buffer enters the pass unchanged). -/
theorem C8_touch_every_element (t rss : Nat) (a : AllocResult) (s : SpinState) (i : Nat)
    (hi : i < (allocDummy t rss a s).length) :
    (spinIter t rss a s).dummy.length = (allocDummy t rss a s).length
    ∧ (spinIter t rss a s).dummy.getD i 0 = (allocDummy t rss a s).getD i 0 + incConst
    ∧ (spinIter t rss a s).dummy.getD i 0 ≠ (allocDummy t rss a s).getD i 0
    ∧ (t * 1024 * 1024 ≤ rss → allocDummy t rss a s = s.dummy) := by
  have hmap : (spinIter t rss a s).dummy
      = (allocDummy t rss a s).map (fun x => x + incConst) := rfl
  have hlen : (spinIter t rss a s).dummy.length = (allocDummy t rss a s).length := by
    rw [hmap, List.length_map]
  have hgetD : (spinIter t rss a s).dummy.getD i 0
      = (allocDummy t rss a s).getD i 0 + incConst := by
    rw [hmap, List.getD_eq_getElem _ 0 (by simpa using hi), List.getD_eq_getElem _ 0 hi]
    simp
  refine ⟨hlen, hgetD, ?_, ?_⟩
  · rw [hgetD]
    intro hcontra
    have hz : incConst = 0 := add_right_eq_self.mp hcontra
    norm_num [incConst] at hz
  · intro hge
    unfold allocDummy
    rw [if_neg (by omega)]

/-- C8 witness at target 0 (usage already at target): the pass still
touches the single element and nothing is appended. -/
theorem C8_touch_every_element_witness :
    0 < (allocDummy 0 0 AllocResult.ok ⟨10, [1]⟩).length
    ∧ ((spinIter 0 0 AllocResult.ok ⟨10, [1]⟩).dummy.length
          = (allocDummy 0 0 AllocResult.ok ⟨10, [1]⟩).length
      ∧ (spinIter 0 0 AllocResult.ok ⟨10, [1]⟩).dummy.getD 0 0
          = (allocDummy 0 0 AllocResult.ok ⟨10, [1]⟩).getD 0 0 + incConst
      ∧ (spinIter 0 0 AllocResult.ok ⟨10, [1]⟩).dummy.getD 0 0
          ≠ (allocDummy 0 0 AllocResult.ok ⟨10, [1]⟩).getD 0 0
      ∧ (0 * 1024 * 1024 ≤ 0 →
          allocDummy 0 0 AllocResult.ok ⟨10, [1]⟩ = (⟨10, [1]⟩ : SpinState).dummy)) :=
  ⟨by decide, C8_touch_every_element 0 0 AllocResult.ok ⟨10, [1]⟩ 0 (by decide)⟩

/-- C9 (counterexample): `_spin` uses `steps = 8`, not 10: at a target of
80 MB the initial step is 10 MB, not `80 / 10 = 8` MB. -/
theorem C9_counterexample :
    (spinInit 80).ramPerStepMB = 10 ∧ (spinInit 80).ramPerStepMB ≠ 80 / 10 := by
  decide

/-- C9 (amended): the target is divided into `steps` equal steps where
the constant `steps` is 8 in this code, so the initial step size is the
target divided by 8 (integer division). -/
theorem C9_amended_eight_steps (t : Nat) :
    (spinInit t).ramPerStepMB = t / steps ∧ steps = 8 :=
  ⟨rfl, rfl⟩

/-! ### Claim theorem for the WorkerSupervisor -/

/-- C5: in any poll cycle that observes fewer live children than the
target count — no matter how many are missing — exactly one replacement
is spawned, it gets the same per-worker memory target, and the printed
line records the observed live count, the target count (hence the
deficit) and the new worker's pid. -/
theorem C5_single_respawn (numProcesses ramPerCoreMB newPid : Nat) (children : List Nat)
    (h : children.length < numProcesses) :
    (pollCycle numProcesses ramPerCoreMB children newPid).1.length = 1
    ∧ (pollCycle numProcesses ramPerCoreMB children newPid).1 = [⟨ramPerCoreMB, newPid⟩]
    ∧ (pollCycle numProcesses ramPerCoreMB children newPid).2
        = [respawnMsg children.length numProcesses newPid] := by
  simp [pollCycle, h]

/-- C5 witness: all 3 workers died at once; still exactly one respawn. -/
theorem C5_single_respawn_witness :
    ([] : List Nat).length < 3
    ∧ ((pollCycle 3 512 [] 42).1.length = 1
      ∧ (pollCycle 3 512 [] 42).1 = [⟨512, 42⟩]
      ∧ (pollCycle 3 512 [] 42).2 = [respawnMsg 0 3 42]) :=
  ⟨by decide, C5_single_respawn 3 512 42 [] (by decide)⟩

/-! ### Claim theorems for the entry point -/

/-- C1 (counterexample): requesting zero cores with no write flag does
NOT produce a configuration error: `_cmd_line` silently replaces the
zero by the host cpu count (here 4) and proceeds to start the CPU/RAM
stressors. -/
theorem C1_counterexample :
    cmd_line (some 0) none none none 4 1024
      = Except.ok ⟨4, 256, true, false, none, none, SignalBehavior.sysExit 1⟩
    ∧ (⟨4, 256, true, false, none, none, SignalBehavior.sysExit 1⟩ : Config).cpuStarted = true :=
  ⟨rfl, rfl⟩

/-- C1 (amended): a requested core count of zero is treated exactly like
an absent flag: it is replaced by the host logical cpu count, no error
is reported, and that many CPU/RAM workers are started. -/
theorem C1_amended_zero_cores_defaulted (memory write maxF : Option Nat)
    (cpuCount totalMemMB : Nat) (h : 0 < cpuCount) :
    cmd_line (some 0) memory write maxF cpuCount totalMemMB
      = Except.ok ⟨cpuCount, pyOr memory totalMemMB / cpuCount, true, truthy write,
          write, maxF, SignalBehavior.sysExit 1⟩ := by
  have hne : cpuCount ≠ 0 := Nat.pos_iff_ne_zero.mp h
  have hbne : (cpuCount != 0) = true := by simp [hne]
  simp [cmd_line, pyOr, hne, hbne, sigintHandler]

/-- C1 witness: `cores=0, write=5, max=100` on a 4-cpu, 1024 MB host. -/
theorem C1_amended_zero_cores_defaulted_witness :
    0 < 4
    ∧ cmd_line (some 0) none (some 5) (some 100) 4 1024
        = Except.ok ⟨4, 256, true, true, some 5, some 100, SignalBehavior.sysExit 1⟩ :=
  ⟨by decide, C1_amended_zero_cores_defaulted none (some 5) (some 100) 4 1024 (by decide)⟩

/-- C2 (counterexample): the installed interrupt handler exits with
status code 1 — a conventionally non-success status — not with the
non-error status 0 the claim asserts. -/
theorem C2_counterexample :
    sigintHandler = SignalBehavior.sysExit 1
    ∧ sigintHandler ≠ SignalBehavior.sysExit 0 := by
  refine ⟨rfl, ?_⟩
  decide

/-- C2 (amended): every configuration accepted by `_cmd_line` installs a
SIGINT handler that suppresses the default unhandled `KeyboardInterrupt`
and instead terminates the process via `sys.exit(1)` — so no error
traceback is surfaced, but the exit status is 1, not a success status. -/
theorem C2_amended_sigint_exit1 (cores memory write maxF : Option Nat)
    (cpuCount totalMemMB : Nat) (c : Config)
    (h : cmd_line cores memory write maxF cpuCount totalMemMB = Except.ok c) :
    c.onSigint = SignalBehavior.sysExit 1
    ∧ c.onSigint ≠ SignalBehavior.defaultRaiseKeyboardInterrupt := by
  have hok : c.onSigint = SignalBehavior.sysExit 1 := by
    simp only [cmd_line] at h
    by_cases hc : pyOr cores cpuCount = 0
    · rw [if_pos hc] at h
      simp at h
    · rw [if_neg hc] at h
      injection h with h2
      rw [← h2]
      rfl
  refine ⟨hok, ?_⟩
  rw [hok]
  decide

/-- C2 witness: a concrete accepted configuration. -/
theorem C2_amended_sigint_exit1_witness :
    cmd_line (some 2) (some 100) none none 4 1024
        = Except.ok ⟨2, 50, true, false, none, none, SignalBehavior.sysExit 1⟩
    ∧ ((⟨2, 50, true, false, none, none, SignalBehavior.sysExit 1⟩ : Config).onSigint
          = SignalBehavior.sysExit 1
      ∧ (⟨2, 50, true, false, none, none, SignalBehavior.sysExit 1⟩ : Config).onSigint
          ≠ SignalBehavior.defaultRaiseKeyboardInterrupt) :=
  ⟨by rfl, C2_amended_sigint_exit1 (some 2) (some 100) none none 4 1024 _ (by rfl)⟩

/-- C10 witness: `write=1, max=1`: the counter reaches 1 MB at tick 1,
and two ticks later everything is latched as the theorem states. -/
theorem C10_wrap_latch_witness :
    (1 * 1024 * 1024 ≤ (stressIORun 1 (some 1) 1).bytesWritten)
    ∧ ((stressIORun 1 (some 1) (1 + 2)).bytesWritten
        = (stressIORun 1 (some 1) 1).bytesWritten + 2 * (1 * 1024 * 1024)
      ∧ 1 * 1024 * 1024 ≤ (stressIORun 1 (some 1) (1 + 2)).bytesWritten
      ∧ seekPos (maxBytesOf (some 1)) (stressIORun 1 (some 1) (1 + 2)) = 0
      ∧ (stressIORun 1 (some 1) (1 + 2)).fileSize
        = ((stressIORun 1 (some 1) 1).bytesWritten + (1 * 1024 * 1024 - 1))
            / (1 * 1024 * 1024) * (1 * 1024 * 1024)) :=
  ⟨by decide, C10_wrap_latch 1 1 1 2 (by decide) (by decide) (by decide) (by decide)⟩
